import Mathlib

/-!
Shallow embedding of the ydb-bench workload execution and metrics engine.

The definitions below are translated from the repository's Python sources:
  * `src/src/ydb_bench/metrics.py`  (TransactionMetrics, MetricsCollector)
  * `src/src/ydb_bench/job.py`      (Job parameter generation and execution loops)
  * `src/src/ydb_bench/parallel_runner.py` together with the branch-range
    arithmetic of `src/runner.py` (range splitting; the package-level
    `ydb_bench/runner.py` holding `Runner.split` is not among the provided
    sources, so the split boundary is modelled from the spec, see below).

Modelling conventions:
  * Python `float` wall-clock timestamps and millisecond values are modelled
    as exact rationals (`ℚ`).  The percentile index constants `0.50`, `0.95`,
    `0.99` are modelled as the rationals `1/2`, `19/20`, `99/100`; for the
    index computation `int(n * p)` the IEEE-754 doubles behave identically to
    exact rational arithmetic (0.5 is exact and for 0.95/0.99 the rounding
    error of `n * double(p)` is always smaller than half an ulp, so the
    truncated result never crosses an integer boundary).
  * A Python function that can raise is modelled with `Option`/`Except`;
    `ErrKind` distinguishes the two runtime errors reachable in
    `MetricsCollector.get_summary` (`IndexError` from `start_times[0]` /
    `end_times[-1]` and `statistics.StatisticsError` from `statistics.stdev`).
  * `statistics.stdev` returns the square root of the sample variance, which
    is irrational in general; the `stddev` field of `Stats` therefore stores
    the sample variance (the square of Python's value).  No claim below
    depends on the numeric stddev value, only on the raising condition
    (fewer than two data points) and the all-zero default.
  * Wall-clock-driven loops (preheat-until-start) are modelled by the list of
    transaction attempts the loop performs before the clock reaches the
    barrier; database calls are modelled by an outcome oracle supplying what
    the call returned (success flag, error text, server stats, timestamps).
-/

namespace YdbBench

/-- One per attempted transaction; `metrics.py` `TransactionMetrics`. -/
structure TransactionMetrics where
  filepath : String
  start_time : ℚ
  end_time : ℚ
  success : Bool
  error_message : String := ""
  server_duration_us : Int := 0
  server_cpu_time_us : Int := 0
  deriving DecidableEq, Repr

/-- Append-only log of transaction samples; `metrics.py` `MetricsCollector`.
`start_time` is the `_start_time` field (first-recorded wall-clock time). -/
structure MetricsCollector where
  transactions : List TransactionMetrics := []
  start_time : Option ℚ := none
  unhandled_error_messages : List String := []
  deriving DecidableEq, Repr

/-- Method `MetricsCollector.record_transaction`; `now` is the `time.time()` value
read when the record happens (used only to initialise `_start_time`). -/
def MetricsCollector.record_transaction (c : MetricsCollector) (now : ℚ)
    (filepath : String) (start_time end_time : ℚ) (success : Bool)
    (error_message : String) (server_duration_us server_cpu_time_us : Int) :
    MetricsCollector :=
  { c with
    start_time := if c.start_time = none then some now else c.start_time
    transactions := c.transactions ++
      [{ filepath := filepath, start_time := start_time, end_time := end_time
         success := success, error_message := error_message
         server_duration_us := server_duration_us
         server_cpu_time_us := server_cpu_time_us }] }

/-- Method `MetricsCollector.merge`: extends the receiver's lists with `other`'s and
keeps the earlier start time (the Python conditional
`if self._start_time is None or (other._start_time is not None and
other._start_time < self._start_time): self._start_time = other._start_time`
is rendered by the match: both `None` keeps `None`, one side `None` keeps the
other, both present keeps the smaller). -/
def MetricsCollector.merge (self other : MetricsCollector) : MetricsCollector :=
  { transactions := self.transactions ++ other.transactions
    unhandled_error_messages :=
      self.unhandled_error_messages ++ other.unhandled_error_messages
    start_time :=
      match self.start_time, other.start_time with
      | none, o => o
      | some s, none => some s
      | some s, some o => if o < s then some o else some s }

/-- Embedding of the call `self.merge(other)` as explicit state passing: the
method body only reads `other` (it assigns exclusively to `self` attributes),
so the second component of the state is returned unchanged. -/
def mergeCall (p : MetricsCollector × MetricsCollector) :
    MetricsCollector × MetricsCollector :=
  (p.1.merge p.2, p.2)

/-- Result of `_calculate_percentiles` (its returned dict).  `stddev` stores
the sample variance, see the module comment. -/
structure Stats where
  avg : ℚ
  stddev : ℚ
  min : ℚ
  max : ℚ
  p50 : ℚ
  p95 : ℚ
  p99 : ℚ
  deriving DecidableEq, Repr

/-- Nearest-rank selection as written in the source:
`sorted_values[i] if i < len(sorted_values) else sorted_values[-1]`. -/
def rankValue (sorted_values : List ℚ) (i : ℕ) : ℚ :=
  if i < sorted_values.length then sorted_values.getD i 0
  else sorted_values.getD (sorted_values.length - 1) 0

/-- Method `MetricsCollector._calculate_percentiles`.  Returns `none` exactly when
`statistics.stdev` raises `StatisticsError` (fewer than two data points;
the empty list is caught earlier by the all-zero guard). -/
def calculatePercentiles (values : List ℚ) : Option Stats :=
  if values = [] then
    some { avg := 0, stddev := 0, min := 0, max := 0, p50 := 0, p95 := 0, p99 := 0 }
  else
    let sorted_values := List.insertionSort (· ≤ ·) values
    if sorted_values.length < 2 then none
    else
      let n := sorted_values.length
      let avg := sorted_values.sum / (n : ℚ)
      let stddev := ((sorted_values.map (fun x => (x - avg) ^ 2)).sum) / ((n : ℚ) - 1)
      let min_val := sorted_values.getD 0 0
      let max_val := sorted_values.getD (n - 1) 0
      let p50_index := Nat.floor ((n : ℚ) * (1 / 2))
      let p95_index := Nat.floor ((n : ℚ) * (19 / 20))
      let p99_index := Nat.floor ((n : ℚ) * (99 / 100))
      some { avg := avg, stddev := stddev, min := min_val, max := max_val
             p50 := rankValue sorted_values p50_index
             p95 := rankValue sorted_values p95_index
             p99 := rankValue sorted_values p99_index }

/-- Runtime errors reachable inside `get_summary` on a non-empty log. -/
inductive ErrKind where
  | indexError
  | statisticsError
  deriving DecidableEq, Repr

/-- The dict returned by `get_summary`.  The three stats fields are `none`
when the source returns the empty dict `{}` (empty-log branch). -/
structure Summary where
  total_duration : ℚ
  total_transactions : ℕ
  successful_transactions : ℕ
  failed_transactions : ℕ
  tps : ℚ
  latency : Option Stats
  server_duration : Option Stats
  server_cpu_time : Option Stats
  deriving DecidableEq, Repr

instance {ε α : Type} [DecidableEq ε] [DecidableEq α] : DecidableEq (Except ε α) := fun a b =>
  match a, b with
  | .ok x, .ok y => decidable_of_iff (x = y) (by simp)
  | .ok _, .error _ => isFalse (by intro h; cases h)
  | .error _, .ok _ => isFalse (by intro h; cases h)
  | .error x, .error y => decidable_of_iff (x = y) (by simp)

/-- Group filtering at the head of `get_summary`: all transactions for the
sentinel `"SUMMARY"`, otherwise those whose `filepath` matches. -/
def filteredTransactions (c : MetricsCollector) (workload : String) :
    List TransactionMetrics :=
  if workload = "SUMMARY" then c.transactions
  else c.transactions.filter (fun t => t.filepath = workload)

/-- Method `MetricsCollector.get_summary`.  The evaluation order of the source is
preserved: the empty-log guard first, then `start_times[0]` / `end_times[-1]`
(an `IndexError` when either list is empty), then the three
`_calculate_percentiles` calls (a `StatisticsError` when any sample list is a
singleton), and only then the `tps` division guarded by `total_duration > 0`. -/
def getSummary (c : MetricsCollector) (workload : String) : Except ErrKind Summary :=
  if c.transactions = [] then
    .ok { total_duration := 0, total_transactions := 0
          successful_transactions := 0, failed_transactions := 0, tps := 0
          latency := none, server_duration := none, server_cpu_time := none }
  else
    let filtered := filteredTransactions c workload
    let start_times := (filtered.filter
      (fun t => t.success && decide (0 < t.server_duration_us))).map (fun t => t.start_time)
    let end_times := (filtered.filter
      (fun t => t.success && decide (0 < t.server_cpu_time_us))).map (fun t => t.end_time)
    match start_times.head?, end_times.getLast? with
    | some min_time, some max_time =>
      let total_duration := max_time - min_time
      let total_transactions := filtered.length
      let successful_transactions := (filtered.filter (fun t => t.success)).length
      let failed_transactions := total_transactions - successful_transactions
      let latencies_ms := filtered.map (fun t => (t.end_time - t.start_time) * 1000)
      match calculatePercentiles latencies_ms with
      | none => .error .statisticsError
      | some latency_stats =>
        let server_durations := (filtered.filter
          (fun t => t.success && decide (0 < t.server_duration_us))).map
          (fun t => (t.server_duration_us : ℚ) / 1000)
        let server_cpu_times := (filtered.filter
          (fun t => t.success && decide (0 < t.server_cpu_time_us))).map
          (fun t => (t.server_cpu_time_us : ℚ) / 1000)
        match calculatePercentiles server_durations,
              calculatePercentiles server_cpu_times with
        | some server_duration_stats, some server_cpu_time_stats =>
          let tps := if 0 < total_duration then (total_transactions : ℚ) / total_duration else 0
          .ok { total_duration := total_duration
                total_transactions := total_transactions
                successful_transactions := successful_transactions
                failed_transactions := failed_transactions
                tps := tps
                latency := some latency_stats
                server_duration := some server_duration_stats
                server_cpu_time := some server_cpu_time_stats }
        | _, _ => .error .statisticsError
    | _, _ => .error .indexError

/-- Workload script descriptor; only the fields `job.py` consults are kept
(`filepath` plus the parameter-usage flags derived in `workload.py` from
static inspection of the SQL text). -/
structure WorkloadScript where
  filepath : String
  uses_bid : Bool
  uses_tid : Bool
  uses_aid : Bool
  uses_delta : Bool
  uses_iteration : Bool
  deriving DecidableEq, Repr

/-- Constant TELLERS_PER_BRANCH from `constants.py`. -/
def TELLERS_PER_BRANCH : Int := 10

/-- Constant ACCOUNTS_PER_BRANCH from `constants.py`. -/
def ACCOUNTS_PER_BRANCH : Int := 100000

/-- The four `randint` draws consumed by one call of `Job._build_parameters`,
in source order: `randint(bid_from, bid_to)`, `randint(1, TELLERS_PER_BRANCH)`,
`randint(1, ACCOUNTS_PER_BRANCH)`, `randint(1, 1000)`. -/
structure Draws where
  bid : Int
  tidOff : Int
  aidOff : Int
  delta : Int
  deriving DecidableEq, Repr

/-- Method `Job._build_parameters`: derives `tid`/`aid`/`delta` from the drawn branch
and includes exactly the parameters whose usage flag is set, in the source's
insertion order. -/
def buildParameters (script : WorkloadScript) (iteration : Int) (d : Draws) :
    List (String × Int) :=
  let bid := d.bid
  let tid := (bid - 1) * TELLERS_PER_BRANCH + d.tidOff
  let aid := (bid - 1) * ACCOUNTS_PER_BRANCH + d.aidOff
  let delta := d.delta
  (if script.uses_bid then [("$bid", bid)] else []) ++
  (if script.uses_tid then [("$tid", tid)] else []) ++
  (if script.uses_aid then [("$aid", aid)] else []) ++
  (if script.uses_delta then [("$delta", delta)] else []) ++
  (if script.uses_iteration then [("$iteration", iteration)] else [])

/-- What one database call observably did: the success flag, the error text
(`str(e)`) when it failed, the server stats read from `tx.last_query_stats`
(0 when the call failed before they were assigned), and the wall-clock
timestamps taken around the call. -/
structure TxOutcome where
  success : Bool
  errorMessage : String
  serverDurationUs : Int
  serverCpuTimeUs : Int
  startTime : ℚ
  endTime : ℚ
  deriving DecidableEq, Repr

/-- Method `Job._execute_operation` for one attempt: builds the parameters, performs
the call (outcome supplied by `o`), and in the `finally` block records a
`TransactionMetrics` if and only if `iteration >= 0` and a collector is
present (`if iteration >= 0 and self._metrics:`).  Returns the possibly
updated collector, the parameter dict that was built, and whether the attempt
succeeded (`False` means the exception was re-raised to the caller). -/
def executeOperation (script : WorkloadScript) (iteration : Int) (d : Draws)
    (o : TxOutcome) (m : Option MetricsCollector) :
    Option MetricsCollector × List (String × Int) × Bool :=
  let params := buildParameters script iteration d
  let error_message := if o.success then "" else o.errorMessage
  let m' :=
    if 0 ≤ iteration then
      match m with
      | some c => some (c.record_transaction o.endTime script.filepath
          o.startTime o.endTime o.success error_message
          o.serverDurationUs o.serverCpuTimeUs)
      | none => none
    else m
  (m', params, o.success)

/-- The preheat loop of `Job._execute_pooled`: while the clock is before
`workload_start_time` it runs attempts with `iteration = -1` (exceptions are
caught and logged).  `attempts` is the list of attempts the loop performs
before the clock reaches the barrier. -/
def pooledPreheat (script : WorkloadScript) (attempts : List (Draws × TxOutcome))
    (m : Option MetricsCollector) : Option MetricsCollector :=
  attempts.foldl (fun acc a => (executeOperation script (-1) a.1 a.2 acc).1) m

/-- The preheat loop of `Job._execute_single_session`: identical shape, but
the source passes `iteration = 0` (`self._execute_operation(session, 0)`). -/
def singleSessionPreheat (script : WorkloadScript)
    (attempts : List (Draws × TxOutcome)) (m : Option MetricsCollector) :
    Option MetricsCollector :=
  attempts.foldl (fun acc a => (executeOperation script 0 a.1 a.2 acc).1) m

/-- The measured phase of `Job._execute_pooled` in TRANSACTION-COUNT mode:
`for i in range(duration)` runs one attempt per iteration through the pool's
retry wrapper; an exception is caught, logged and the loop continues with the
next iteration.  `oracle` supplies iteration `i`'s random draws and call
outcome.  Returns the collector and the parameter dicts built, in order. -/
def runMeasuredCount (script : WorkloadScript) (oracle : ℕ → Draws × TxOutcome)
    (m : Option MetricsCollector) :
    ℕ → Option MetricsCollector × List (List (String × Int))
  | 0 => (m, [])
  | n + 1 =>
    let prev := runMeasuredCount script oracle m n
    let step := executeOperation script (n : Int) (oracle n).1 (oracle n).2 prev.1
    (step.1, prev.2 ++ [step.2.1])

/-- Method `Job._execute_pooled` in TRANSACTION-COUNT mode: the preheat loop runs
until the synchronized start barrier, then the measured loop runs exactly
`duration` iterations. -/
def runPooledTxnJob (script : WorkloadScript)
    (preheatAttempts : List (Draws × TxOutcome))
    (oracle : ℕ → Draws × TxOutcome) (duration : ℕ)
    (m : Option MetricsCollector) :
    Option MetricsCollector × List (List (String × Int)) :=
  runMeasuredCount script oracle (pooledPreheat script preheatAttempts m) duration

/-- The record appended by `_execute_operation` for measured iteration `i`
with outcome `o`. -/
def recordedOf (script : WorkloadScript) (o : TxOutcome) : TransactionMetrics :=
  { filepath := script.filepath, start_time := o.startTime, end_time := o.endTime
    success := o.success
    error_message := if o.success then "" else o.errorMessage
    server_duration_us := o.serverDurationUs
    server_cpu_time_us := o.serverCpuTimeUs }

/-- Modelled from the spec: `Runner.split` lives in `ydb_bench/runner.py`,
which is not among the provided sources (only its caller
`ParallelRunner.run_parallel` is).  Per spec section 4.4 the boundary of
sub-range `i` is `floor((bid_to - bid_from + 1) / P * i) + bid_from`; in exact
arithmetic that floor equals natural division `i * (bid_to - bid_from + 1) / P`
(proved in `splitBoundary_eq_floor` below).  The same formula appears in the
visible analogous loop `src/runner.py` lines 91-92. -/
def splitBoundary (bid_from bid_to P i : ℕ) : ℕ :=
  i * (bid_to - bid_from + 1) / P + bid_from

/-- Modelled from the spec: the `P` contiguous sub-ranges `[boundary i,
boundary (i+1) - 1]` handed to the `P` worker processes. -/
def splitRanges (bid_from bid_to P : ℕ) : List (ℕ × ℕ) :=
  (List.range P).map fun i =>
    (splitBoundary bid_from bid_to P i, splitBoundary bid_from bid_to P (i + 1) - 1)

/-- The merge fold at the end of `ParallelRunner.run_parallel`: results of
failed processes are `None` and are skipped. -/
def mergeResults (results : List (Option MetricsCollector)) : MetricsCollector :=
  results.foldl
    (fun acc r => match r with | some c => acc.merge c | none => acc) {}

/-- The spec's wording of the percentile index rule, for comparison with the
source's `rankValue`: the element at index `floor(n * p)`, clamped to the
last index if that would overflow. -/
def valueAtClamped (sorted_values : List ℚ) (i : ℕ) : ℚ :=
  sorted_values.getD (min i (sorted_values.length - 1)) 0

/-- The claim's wording of the merged start time: the earlier of the two
collectors' start times, an absent one treated as later than any present
one. -/
def earlierStart : Option ℚ → Option ℚ → Option ℚ
  | none, b => b
  | some a, none => some a
  | some a, some b => some (min a b)

example : calculatePercentiles [(1 : ℚ), 2, 3, 4, 5, 6, 7, 8, 9, 10] =
    some { avg := 11 / 2, stddev := 55 / 6, min := 1, max := 10
           p50 := 6, p95 := 10, p99 := 10 } := by with_unfolding_all decide

example : getSummary { transactions := [] } "SUMMARY" =
    .ok { total_duration := 0, total_transactions := 0
          successful_transactions := 0, failed_transactions := 0, tps := 0
          latency := none, server_duration := none, server_cpu_time := none } := by
  with_unfolding_all decide

example : getSummary
    { transactions := [{ filepath := "s1", start_time := 0, end_time := 1
                         success := false, error_message := "boom" }] }
    "SUMMARY" = .error .indexError := by with_unfolding_all decide

/-- C5: merge(A, B) produces a transaction log whose length equals
len(A) + len(B), and merge is commutative (up to permutation, i.e. as a
multiset of transaction records) and associative. -/
theorem C5_merge_count_comm_assoc (A B C : MetricsCollector) :
    (A.merge B).transactions.length
      = A.transactions.length + B.transactions.length ∧
    (A.merge B).transactions.Perm (B.merge A).transactions ∧
    ((A.merge B).merge C).transactions = (A.merge (B.merge C)).transactions := by
  refine ⟨by simp [MetricsCollector.merge], ?_, by simp [MetricsCollector.merge]⟩
  simpa [MetricsCollector.merge] using
    @List.perm_append_comm _ A.transactions B.transactions

/-- C7: a completely empty transaction log yields the all-zero summary with
tps = 0 and no runtime error (the `.ok` branch is taken, so the division by
`total_duration` is never reached). -/
theorem C7_empty_log_zero_summary (st : Option ℚ) (errs : List String) (w : String) :
    getSummary { transactions := [], start_time := st,
                 unhandled_error_messages := errs } w =
      .ok { total_duration := 0, total_transactions := 0,
            successful_transactions := 0, failed_transactions := 0, tps := 0,
            latency := none, server_duration := none, server_cpu_time := none } := by
  simp [getSummary]

/-- C10: merge mutates only the receiving collector: the other collector is
returned unchanged, the receiver's transactions and unhandled error messages
are its old lists followed by the other's, and its recorded first start time
is the earlier of the two start times (an absent start time treated as later
than any present one). -/
theorem C10_merge_frame (a b : MetricsCollector) :
    (mergeCall (a, b)).2 = b ∧
    (mergeCall (a, b)).1.transactions = a.transactions ++ b.transactions ∧
    (mergeCall (a, b)).1.unhandled_error_messages
      = a.unhandled_error_messages ++ b.unhandled_error_messages ∧
    (mergeCall (a, b)).1.start_time = earlierStart a.start_time b.start_time := by
  refine ⟨rfl, rfl, rfl, ?_⟩
  rcases ha : a.start_time with _ | s <;> rcases hb : b.start_time with _ | o <;>
    simp [mergeCall, MetricsCollector.merge, earlierStart, ha, hb]
  split_ifs with h
  · exact congrArg some (min_eq_right h.le).symm
  · exact congrArg some (min_eq_left (le_of_not_lt h)).symm

/-- C2 (code bug, evaluated at the failing input): on a log whose only
transaction failed, the "SUMMARY" group contains no successful transaction
with nonzero server duration, and `get_summary` raises IndexError at
`start_times[0]` instead of failing gracefully with all-zero stats. -/
theorem C2_empty_group_index_error :
    getSummary { transactions := [{ filepath := "s1", start_time := 0,
                                    end_time := 1, success := false,
                                    error_message := "boom" }] } "SUMMARY"
      = .error .indexError := by
  with_unfolding_all decide

/-- C1 (code bug, evaluated at the failing input): one transaction attempt
executed before the workload start barrier records nothing in pooled mode
(the source passes `iteration = -1`), but in single-session mode the source
passes `iteration = 0`, so the same preheat attempt is recorded: the two
session modes do not have identical metrics-recording behavior and a
transaction executed before `workload_start_time` is recorded in
single-session mode. -/
theorem C1_preheat_single_session_records :
    (pooledPreheat ⟨"<default>", true, true, true, true, false⟩
        [(⟨1, 1, 1, 1⟩, ⟨true, "", 5, 5, 0, 1⟩)] (some {}))
      = some {} ∧
    (singleSessionPreheat ⟨"<default>", true, true, true, true, false⟩
        [(⟨1, 1, 1, 1⟩, ⟨true, "", 5, 5, 0, 1⟩)] (some {})).map
        (fun c => c.transactions.length) = some 1 := by
  with_unfolding_all decide

lemma rankValue_eq_valueAtClamped (l : List ℚ) (i : ℕ) :
    rankValue l i = valueAtClamped l i := by
  unfold rankValue valueAtClamped
  by_cases h : i < l.length
  · rw [if_pos h]
    congr 1
    omega
  · rw [if_neg h]
    congr 1
    omega

/-- C3: whenever the summary computes percentiles of a non-empty sorted
ascending sequence, the p-th percentile (p in 0.50 / 0.95 / 0.99) is the
element at index floor(n * p) clamped to the last index; in particular for
values = [1..10] the p50 is 6 and the p95 and p99 are 10 (nearest-rank, not
interpolated). -/
theorem C3_percentile_nearest_rank :
    (∀ (values : List ℚ) (stats : Stats), values ≠ [] →
       values.Sorted (· ≤ ·) → calculatePercentiles values = some stats →
       stats.p50 = valueAtClamped values (Nat.floor ((values.length : ℚ) * (1 / 2))) ∧
       stats.p95 = valueAtClamped values (Nat.floor ((values.length : ℚ) * (19 / 20))) ∧
       stats.p99 = valueAtClamped values (Nat.floor ((values.length : ℚ) * (99 / 100)))) ∧
    (∃ stats, calculatePercentiles [(1 : ℚ), 2, 3, 4, 5, 6, 7, 8, 9, 10] = some stats ∧
       stats.p50 = 6 ∧ stats.p95 = 10 ∧ stats.p99 = 10) := by
  constructor
  · intro values stats hne hs h
    have hsort : List.insertionSort (· ≤ ·) values = values := hs.insertionSort_eq
    simp only [calculatePercentiles, if_neg hne, hsort] at h
    by_cases hlen : values.length < 2
    · simp [hlen] at h
    · simp only [hlen, if_false] at h
      obtain rfl := (Option.some.injEq _ _).mp h
      exact ⟨rankValue_eq_valueAtClamped _ _, rankValue_eq_valueAtClamped _ _,
             rankValue_eq_valueAtClamped _ _⟩
  · exact ⟨{ avg := 11 / 2, stddev := 55 / 6, min := 1, max := 10
             p50 := 6, p95 := 10, p99 := 10 },
           by with_unfolding_all decide, rfl, rfl, rfl⟩

/-- Witness for C3 at the concrete input [1..10]. -/
theorem C3_percentile_nearest_rank_witness :
    ∃ stats, calculatePercentiles [(1 : ℚ), 2, 3, 4, 5, 6, 7, 8, 9, 10] = some stats ∧
      stats.p50 = valueAtClamped [(1 : ℚ), 2, 3, 4, 5, 6, 7, 8, 9, 10]
        (Nat.floor ((([(1 : ℚ), 2, 3, 4, 5, 6, 7, 8, 9, 10].length : ℕ) : ℚ) * (1 / 2))) := by
  have h : calculatePercentiles [(1 : ℚ), 2, 3, 4, 5, 6, 7, 8, 9, 10]
      = some { avg := 11 / 2, stddev := 55 / 6, min := 1, max := 10
               p50 := 6, p95 := 10, p99 := 10 } := by
    with_unfolding_all decide
  have hs : ([(1 : ℚ), 2, 3, 4, 5, 6, 7, 8, 9, 10]).Sorted (· ≤ ·) := by decide
  exact ⟨_, h, (C3_percentile_nearest_rank.1 _ _ (by simp) hs h).1⟩

/-- C9 (counterexample): a group consisting of one successful transaction
with nonzero server duration but zero server CPU time has a client-latency
sample list with exactly one element, yet `get_summary` raises IndexError at
`end_times[-1]` (the CPU-time filter is empty) before `statistics.stdev` is
ever reached, refuting the claim that such groups always raise
StatisticsError. -/
theorem C9_singleton_group_index_error :
    getSummary { transactions := [{ filepath := "s1", start_time := 0,
                                    end_time := 1, success := true,
                                    error_message := "",
                                    server_duration_us := 5,
                                    server_cpu_time_us := 0 }] } "SUMMARY"
      = .error .indexError ∧
    ErrKind.indexError ≠ ErrKind.statisticsError := by
  constructor
  · with_unfolding_all decide
  · decide

/-- C9 (amended): `_calculate_percentiles` is total exactly on sample lists
of length 0 or at least 2 (it raises StatisticsError, modelled as `none`,
precisely on singletons), and a group whose only filtered transaction is
successful with nonzero server duration and CPU time makes `get_summary`
raise StatisticsError from `statistics.stdev` rather than return a
summary. -/
theorem C9_singleton_raises :
    (∀ values : List ℚ, calculatePercentiles values = none ↔ values.length = 1) ∧
    (∀ (c : MetricsCollector) (w : String) (t : TransactionMetrics),
       filteredTransactions c w = [t] → t.success = true →
       0 < t.server_duration_us → 0 < t.server_cpu_time_us →
       getSummary c w = .error .statisticsError) := by
  have hnone : ∀ values : List ℚ, calculatePercentiles values = none ↔ values.length = 1 := by
    intro values
    by_cases hne : values = []
    · subst hne
      simp [calculatePercentiles]
    · have hpos : 0 < values.length := List.length_pos.mpr hne
      simp only [calculatePercentiles, if_neg hne]
      by_cases hlen : (List.insertionSort (· ≤ ·) values).length < 2
      · rw [List.length_insertionSort] at hlen
        simp [List.length_insertionSort, hlen]
        omega
      · rw [List.length_insertionSort] at hlen
        simp [List.length_insertionSort, hlen]
        omega
  refine ⟨hnone, ?_⟩
  intro c w t ht hts hdur hcpu
  have hcne : c.transactions ≠ [] := by
    intro hc
    rw [filteredTransactions, hc] at ht
    split at ht <;> simp at ht
  have h1 : calculatePercentiles [(t.end_time - t.start_time) * 1000] = none :=
    (hnone _).mpr (by simp)
  simp [getSummary, hcne, ht, hts, hdur, hcpu, h1]

/-- Witness for C9 at a group holding a single fully-populated successful
transaction. -/
theorem C9_singleton_raises_witness :
    getSummary { transactions := [{ filepath := "s1", start_time := 0,
                                    end_time := 1, success := true,
                                    error_message := "",
                                    server_duration_us := 5,
                                    server_cpu_time_us := 7 }] } "SUMMARY"
      = .error .statisticsError :=
  C9_singleton_raises.2 _ "SUMMARY" _ rfl rfl (by decide) (by decide)

/-- Placeholder default record used only as the `getD` fallback in statements
about recorded transactions (all indices used are in bounds). -/
def dummyTxn : TransactionMetrics :=
  { filepath := "", start_time := 0, end_time := 0, success := false }

lemma executeOperation_nonneg (script : WorkloadScript) (i : Int) (hi : 0 ≤ i)
    (d : Draws) (o : TxOutcome) (c : MetricsCollector) :
    executeOperation script i d o (some c) =
      (some (c.record_transaction o.endTime script.filepath o.startTime
         o.endTime o.success (if o.success then "" else o.errorMessage)
         o.serverDurationUs o.serverCpuTimeUs),
       buildParameters script i d, o.success) := by
  simp [executeOperation, hi]

lemma record_transaction_transactions (c : MetricsCollector) (script : WorkloadScript)
    (o : TxOutcome) :
    (c.record_transaction o.endTime script.filepath o.startTime o.endTime
        o.success (if o.success then "" else o.errorMessage)
        o.serverDurationUs o.serverCpuTimeUs).transactions
      = c.transactions ++ [recordedOf script o] := by
  simp [MetricsCollector.record_transaction, recordedOf]

/-- Full characterisation of the measured TRANSACTION-COUNT loop: starting
from a present collector it stays present, appends exactly one record per
iteration (success or failure alike, in iteration order), and returns the
parameter dicts built by each iteration. -/
lemma runMeasuredCount_chars (script : WorkloadScript)
    (oracle : ℕ → Draws × TxOutcome) (c : MetricsCollector) :
    ∀ n, ∃ c', (runMeasuredCount script oracle (some c) n).1 = some c' ∧
      c'.transactions = c.transactions ++
        (List.range n).map (fun i => recordedOf script (oracle i).2) ∧
      (runMeasuredCount script oracle (some c) n).2
        = (List.range n).map (fun i : ℕ => buildParameters script (i : Int) (oracle i).1) := by
  intro n
  induction n with
  | zero => exact ⟨c, rfl, by simp, by simp [runMeasuredCount]⟩
  | succ k ih =>
    obtain ⟨c', h1, h2, h3⟩ := ih
    refine ⟨c'.record_transaction (oracle k).2.endTime script.filepath
        (oracle k).2.startTime (oracle k).2.endTime (oracle k).2.success
        (if (oracle k).2.success then "" else (oracle k).2.errorMessage)
        (oracle k).2.serverDurationUs (oracle k).2.serverCpuTimeUs, ?_, ?_, ?_⟩
    · simp only [runMeasuredCount, h1,
        executeOperation_nonneg script (k : Int) (Int.natCast_nonneg k)]
    · rw [record_transaction_transactions c' script (oracle k).2, h2,
        List.range_succ]
      simp
    · simp only [runMeasuredCount, h1,
        executeOperation_nonneg script (k : Int) (Int.natCast_nonneg k), h3,
        List.range_succ]
      simp

/-- C8: in the measured pooled loop, every transaction whose database call
fails is recorded with success = false and the error text, the failure is
re-raised to the caller (the returned flag reports it), a failed transaction
still consumes exactly one loop iteration and one measured slot, and the
loop always completes all `duration` iterations regardless of per-transaction
failures. -/
theorem C8_failure_recorded_loop_continues (script : WorkloadScript)
    (oracle : ℕ → Draws × TxOutcome) (c : MetricsCollector) (duration : ℕ) :
    (∀ (i : Int) (d : Draws) (o : TxOutcome) (m : Option MetricsCollector),
       (executeOperation script i d o m).2.2 = o.success) ∧
    ∃ c', (runMeasuredCount script oracle (some c) duration).1 = some c' ∧
      c'.transactions.length = c.transactions.length + duration ∧
      ∀ i, i < duration →
        (c'.transactions.getD (c.transactions.length + i) dummyTxn).success
            = (oracle i).2.success ∧
        (c'.transactions.getD (c.transactions.length + i) dummyTxn).error_message
            = (if (oracle i).2.success then "" else (oracle i).2.errorMessage) := by
  refine ⟨fun i d o m => rfl, ?_⟩
  obtain ⟨c', h1, h2, -⟩ := runMeasuredCount_chars script oracle c duration
  refine ⟨c', h1, by simp [h2], ?_⟩
  intro i hi
  have hget : c'.transactions.getD (c.transactions.length + i) dummyTxn
      = recordedOf script (oracle i).2 := by
    rw [h2, List.getD_append_right _ _ _ _ (by omega)]
    simp [List.getD, hi]
  rw [hget]
  exact ⟨rfl, rfl⟩

/-- Witness for C8: a single failing iteration is still recorded, with the
error text, and the loop completes. -/
theorem C8_failure_recorded_loop_continues_witness :
    ∃ c', (runMeasuredCount ⟨"f", true, true, true, true, true⟩
        (fun _ => (⟨1, 2, 3, 4⟩, ⟨false, "err", 0, 0, 0, 1⟩)) (some {}) 1).1 = some c' ∧
      c'.transactions.length = 1 ∧
      (c'.transactions.getD 0 dummyTxn).success = false ∧
      (c'.transactions.getD 0 dummyTxn).error_message = "err" := by
  obtain ⟨-, c', h1, h2, h3⟩ := C8_failure_recorded_loop_continues
    ⟨"f", true, true, true, true, true⟩
    (fun _ => (⟨1, 2, 3, 4⟩, ⟨false, "err", 0, 0, 0, 1⟩)) {} 1
  have h0 := h3 0 (by decide)
  exact ⟨c', h1, by simpa using h2, by simpa using h0.1, by simpa using h0.2⟩

/-- One script referencing all five bind parameters (the C6 scenario). -/
def allParamsScript : WorkloadScript :=
  { filepath := "<script>", uses_bid := true, uses_tid := true
    uses_aid := true, uses_delta := true, uses_iteration := true }

lemma buildParameters_lookup (s : WorkloadScript) (i : Int) (d : Draws) :
    (buildParameters s i d).lookup "$bid" = (if s.uses_bid then some d.bid else none) ∧
    (buildParameters s i d).lookup "$tid"
      = (if s.uses_tid then some ((d.bid - 1) * TELLERS_PER_BRANCH + d.tidOff) else none) ∧
    (buildParameters s i d).lookup "$aid"
      = (if s.uses_aid then some ((d.bid - 1) * ACCOUNTS_PER_BRANCH + d.aidOff) else none) ∧
    (buildParameters s i d).lookup "$delta"
      = (if s.uses_delta then some d.delta else none) ∧
    (buildParameters s i d).lookup "$iteration"
      = (if s.uses_iteration then some i else none) := by
  rcases s with ⟨fp, b, t, a, dl, it⟩
  cases b <;> cases t <;> cases a <;> cases dl <;> cases it <;>
    simp [buildParameters, List.lookup]

/-- C6: with bid range [1,1], a script using all parameters,
TRANSACTION-COUNT duration 5 and zero preheat, the job records exactly 5
TransactionMetrics, every generated parameter set has bid = 1,
tid in [1, TELLERS_PER_BRANCH], aid in [1, ACCOUNTS_PER_BRANCH] and
delta in [1, 1000]; and in general the parameters follow
tid = (bid-1)*TELLERS_PER_BRANCH + uniform[1,TELLERS_PER_BRANCH],
aid = (bid-1)*ACCOUNTS_PER_BRANCH + uniform[1,ACCOUNTS_PER_BRANCH],
delta = uniform[1,1000], with only the parameters the selected script
references included. -/
theorem C6_txn_count_scenario (oracle : ℕ → Draws × TxOutcome)
    (hdraw : ∀ i, i < 5 →
      1 ≤ (oracle i).1.bid ∧ (oracle i).1.bid ≤ 1 ∧
      1 ≤ (oracle i).1.tidOff ∧ (oracle i).1.tidOff ≤ TELLERS_PER_BRANCH ∧
      1 ≤ (oracle i).1.aidOff ∧ (oracle i).1.aidOff ≤ ACCOUNTS_PER_BRANCH ∧
      1 ≤ (oracle i).1.delta ∧ (oracle i).1.delta ≤ 1000) :
    (∃ c', (runPooledTxnJob allParamsScript [] oracle 5 (some {})).1 = some c' ∧
       c'.transactions.length = 5) ∧
    (∀ p ∈ (runPooledTxnJob allParamsScript [] oracle 5 (some {})).2,
       p.lookup "$bid" = some 1 ∧
       (∃ t, p.lookup "$tid" = some t ∧ 1 ≤ t ∧ t ≤ TELLERS_PER_BRANCH) ∧
       (∃ a, p.lookup "$aid" = some a ∧ 1 ≤ a ∧ a ≤ ACCOUNTS_PER_BRANCH) ∧
       (∃ dl, p.lookup "$delta" = some dl ∧ 1 ≤ dl ∧ dl ≤ 1000)) ∧
    (∀ (s : WorkloadScript) (i : Int) (d : Draws),
       (buildParameters s i d).lookup "$bid"
         = (if s.uses_bid then some d.bid else none) ∧
       (buildParameters s i d).lookup "$tid"
         = (if s.uses_tid then some ((d.bid - 1) * TELLERS_PER_BRANCH + d.tidOff) else none) ∧
       (buildParameters s i d).lookup "$aid"
         = (if s.uses_aid then some ((d.bid - 1) * ACCOUNTS_PER_BRANCH + d.aidOff) else none) ∧
       (buildParameters s i d).lookup "$delta"
         = (if s.uses_delta then some d.delta else none) ∧
       (buildParameters s i d).lookup "$iteration"
         = (if s.uses_iteration then some i else none)) := by
  have hrun : runPooledTxnJob allParamsScript [] oracle 5 (some {})
      = runMeasuredCount allParamsScript oracle (some {}) 5 := rfl
  refine ⟨?_, ?_, buildParameters_lookup⟩
  · obtain ⟨c', h1, h2, -⟩ := runMeasuredCount_chars allParamsScript oracle {} 5
    exact ⟨c', hrun ▸ h1, by simp [h2]⟩
  · intro p hp
    rw [hrun] at hp
    obtain ⟨c', -, -, h3⟩ := runMeasuredCount_chars allParamsScript oracle {} 5
    rw [h3] at hp
    obtain ⟨i, hir, rfl⟩ := List.mem_map.mp hp
    have hi5 : i < 5 := List.mem_range.mp hir
    obtain ⟨hb1, hb2, ht1, ht2, ha1, ha2, hd1, hd2⟩ := hdraw i hi5
    have hbid : (oracle i).1.bid = 1 := le_antisymm hb2 hb1
    have hl := buildParameters_lookup allParamsScript (i : Int) (oracle i).1
    refine ⟨?_,
      ⟨((oracle i).1.bid - 1) * TELLERS_PER_BRANCH + (oracle i).1.tidOff, ?_, ?_, ?_⟩,
      ⟨((oracle i).1.bid - 1) * ACCOUNTS_PER_BRANCH + (oracle i).1.aidOff, ?_, ?_, ?_⟩,
      ⟨(oracle i).1.delta, ?_, ?_, ?_⟩⟩
    · rw [hl.1]
      simp [allParamsScript, hbid]
    · rw [hl.2.1]
      simp [allParamsScript]
    · rw [hbid]
      simpa using ht1
    · rw [hbid]
      simpa using ht2
    · rw [hl.2.2.1]
      simp [allParamsScript]
    · rw [hbid]
      simpa using ha1
    · rw [hbid]
      simpa using ha2
    · rw [hl.2.2.2.1]
      simp [allParamsScript]
    · exact hd1
    · exact hd2

/-- Witness for C6 with a concrete in-range oracle. -/
theorem C6_txn_count_scenario_witness :
    ∃ c', (runPooledTxnJob allParamsScript []
        (fun _ => (⟨1, 5, 7, 9⟩, ⟨true, "", 3, 2, 0, 1⟩)) 5 (some {})).1 = some c' ∧
      c'.transactions.length = 5 := by
  have h := C6_txn_count_scenario (fun _ => (⟨1, 5, 7, 9⟩, ⟨true, "", 3, 2, 0, 1⟩)) ?_
  · exact h.1
  · intro i hi
    show 1 ≤ (1 : Int) ∧ (1 : Int) ≤ 1 ∧ 1 ≤ (5 : Int) ∧
      (5 : Int) ≤ TELLERS_PER_BRANCH ∧ 1 ≤ (7 : Int) ∧
      (7 : Int) ≤ ACCOUNTS_PER_BRANCH ∧ 1 ≤ (9 : Int) ∧ (9 : Int) ≤ 1000
    decide

/-- C4 (counterexample): for branch IDs [1,100] and P = 3 the boundary
formula floor((bid_to-bid_from+1)/P * i) + bid_from yields the sub-ranges
[1,33],[34,66],[67,100], not the [1,33],[34,67],[68,100] stated by the
claim. -/
theorem C4_example_ranges :
    splitRanges 1 100 3 = [(1, 33), (34, 66), (67, 100)] ∧
    splitRanges 1 100 3 ≠ [(1, 33), (34, 67), (68, 100)] := by
  constructor
  · decide
  · decide

lemma exists_segment (f : ℕ → ℕ) (b : ℕ) :
    ∀ P, f 0 ≤ b → b < f P → ∃ i, i < P ∧ f i ≤ b ∧ b < f (i + 1) := by
  intro P
  induction P with
  | zero => intro h1 h2; omega
  | succ n ih =>
    intro h1 h2
    by_cases hc : f n ≤ b
    · exact ⟨n, by omega, hc, h2⟩
    · obtain ⟨i, hi, h3, h4⟩ := ih h1 (by omega)
      exact ⟨i, by omega, h3, h4⟩

lemma splitBoundary_mono (bid_from bid_to P : ℕ) {i j : ℕ} (h : i ≤ j) :
    splitBoundary bid_from bid_to P i ≤ splitBoundary bid_from bid_to P j := by
  unfold splitBoundary
  have h2 : i * (bid_to - bid_from + 1) / P ≤ j * (bid_to - bid_from + 1) / P :=
    Nat.div_le_div_right (Nat.mul_le_mul_right (bid_to - bid_from + 1) h)
  omega

lemma div_size_bounds (n P i : ℕ) (hP : 0 < P) :
    n / P ≤ (i + 1) * n / P - i * n / P ∧
    (i + 1) * n / P - i * n / P ≤ n / P + 1 := by
  have e4 : (i + 1) * n = i * n + n := by ring
  rw [e4, Nat.add_div hP]
  split_ifs <;>
    · generalize i * n / P = q
      generalize n / P = s
      omega

lemma splitBoundary_size (bid_from bid_to P i : ℕ) (hP : 0 < P) :
    (bid_to - bid_from + 1) / P
        ≤ splitBoundary bid_from bid_to P (i + 1) - splitBoundary bid_from bid_to P i ∧
    splitBoundary bid_from bid_to P (i + 1) - splitBoundary bid_from bid_to P i
        ≤ (bid_to - bid_from + 1) / P + 1 := by
  unfold splitBoundary
  have h := div_size_bounds (bid_to - bid_from + 1) P i hP
  have hmono : i * (bid_to - bid_from + 1) / P ≤ (i + 1) * (bid_to - bid_from + 1) / P :=
    Nat.div_le_div_right (Nat.mul_le_mul_right (bid_to - bid_from + 1) (by omega))
  omega

lemma splitRanges_getD (bid_from bid_to P i : ℕ) (hi : i < P) :
    (splitRanges bid_from bid_to P).getD i (0, 0)
      = (splitBoundary bid_from bid_to P i,
         splitBoundary bid_from bid_to P (i + 1) - 1) := by
  unfold splitRanges
  rw [List.getD_eq_getElem?_getD, List.getElem?_map, List.getElem?_range hi]
  rfl

/-- C4 (amended): for every branch range [bid_from, bid_to] with
1 <= bid_from <= bid_to and process count P >= 1, the split produces P
contiguous non-overlapping sub-ranges with boundary i at
floor((bid_to-bid_from+1)/P * i) + bid_from, which together cover the full
range and whose sizes differ by at most one branch; in particular for branch
IDs [1,100] and P = 3 the sub-ranges are [1,33],[34,66],[67,100]. -/
theorem C4_split_partition (bid_from bid_to P : ℕ)
    (hP : 1 ≤ P) (hbf : 1 ≤ bid_from) (hft : bid_from ≤ bid_to) :
    (∀ i, splitBoundary bid_from bid_to P i
        = Nat.floor (((bid_to - bid_from + 1 : ℕ) : ℚ) / (P : ℚ) * (i : ℚ)) + bid_from) ∧
    (splitRanges bid_from bid_to P).length = P ∧
    splitBoundary bid_from bid_to P 0 = bid_from ∧
    splitBoundary bid_from bid_to P P = bid_to + 1 ∧
    (∀ i, i < P → (splitRanges bid_from bid_to P).getD i (0, 0)
        = (splitBoundary bid_from bid_to P i,
           splitBoundary bid_from bid_to P (i + 1) - 1)) ∧
    (∀ i, i + 1 < P →
       ((splitRanges bid_from bid_to P).getD (i + 1) (0, 0)).1
         = ((splitRanges bid_from bid_to P).getD i (0, 0)).2 + 1) ∧
    (∀ b, bid_from ≤ b → b ≤ bid_to →
       ∃ i, i < P ∧ splitBoundary bid_from bid_to P i ≤ b ∧
         b ≤ splitBoundary bid_from bid_to P (i + 1) - 1) ∧
    (∀ i j b, i < j → j < P →
       ¬(splitBoundary bid_from bid_to P i ≤ b ∧
         b ≤ splitBoundary bid_from bid_to P (i + 1) - 1 ∧
         splitBoundary bid_from bid_to P j ≤ b ∧
         b ≤ splitBoundary bid_from bid_to P (j + 1) - 1)) ∧
    (∀ i j, i < P → j < P →
       splitBoundary bid_from bid_to P (i + 1) - splitBoundary bid_from bid_to P i
         ≤ (splitBoundary bid_from bid_to P (j + 1)
             - splitBoundary bid_from bid_to P j) + 1) ∧
    splitRanges 1 100 3 = [(1, 33), (34, 66), (67, 100)] := by
  have hP0 : 0 < P := hP
  have hbound0 : splitBoundary bid_from bid_to P 0 = bid_from := by
    simp [splitBoundary]
  have hboundP : splitBoundary bid_from bid_to P P = bid_to + 1 := by
    unfold splitBoundary
    rw [Nat.mul_div_cancel_left _ hP0]
    omega
  have hge : ∀ i, bid_from ≤ splitBoundary bid_from bid_to P i := by
    intro i
    exact Nat.le_add_left _ _
  refine ⟨?_, by simp [splitRanges], hbound0, hboundP, splitRanges_getD bid_from bid_to P,
    ?_, ?_, ?_, ?_, by decide⟩
  · intro i
    have hcast : ((bid_to - bid_from + 1 : ℕ) : ℚ) / (P : ℚ) * (i : ℚ)
        = (((bid_to - bid_from + 1) * i : ℕ) : ℚ) / (P : ℚ) := by
      push_cast
      ring
    rw [hcast, Nat.floor_div_nat, Nat.floor_natCast, splitBoundary, Nat.mul_comm]
  · intro i hi
    rw [splitRanges_getD bid_from bid_to P (i + 1) hi,
        splitRanges_getD bid_from bid_to P i (by omega)]
    have := hge (i + 1)
    simp only []
    omega
  · intro b hb1 hb2
    obtain ⟨i, hi, h3, h4⟩ := exists_segment (splitBoundary bid_from bid_to P) b P
      (by omega) (by omega)
    exact ⟨i, hi, h3, by have := hge (i + 1); omega⟩
  · intro i j b hij hjP h
    have hm : splitBoundary bid_from bid_to P (i + 1) ≤ splitBoundary bid_from bid_to P j :=
      splitBoundary_mono bid_from bid_to P (by omega)
    have := hge (i + 1)
    omega
  · intro i j hi hj
    have h1 := splitBoundary_size bid_from bid_to P i hP0
    have h2 := splitBoundary_size bid_from bid_to P j hP0
    omega

/-- Witness for C4 at bid_from = 1, bid_to = 100, P = 3. -/
theorem C4_split_partition_witness :
    (splitRanges 1 100 3).length = 3 ∧ splitBoundary 1 100 3 3 = 101 := by
  have h := C4_split_partition 1 100 3 (by decide) (by decide) (by decide)
  exact ⟨h.2.1, h.2.2.2.1⟩

end YdbBench
